import Mathlib

/-!
Verification development for the stock-spreadsheet batch pipeline
(`combine_spreadsheets.py`, `utils.py`, `run_macros.py`, `config.py`).

The pipeline's tabular data (pandas DataFrames) is shallowly embedded as
lists of rows of cells; a cell is blank (pandas NaN), a string, or a
number (modelled as a rational, since the values involved are finite
decimals).  Each Python function used by the claims is translated into a
Lean definition of the same shape; the theorems below are stated against
those definitions.
-/

namespace StockSheets

/-- A single cell of a data frame: pandas NaN, a Python string, or a
numeric value. -/
inductive Cell where
  | blank : Cell
  | str (s : String) : Cell
  | num (q : ℚ) : Cell
  deriving DecidableEq, Repr

/-- A data frame: a list of column names and a list of rows, each row a
list of cells positionally aligned with the column names. -/
structure DataFrame where
  columns : List String
  rows : List (List Cell)
  deriving DecidableEq, Repr

/-- The `j`-th column of a data frame, read off row by row (missing
positions read as blank, like pandas NaN). -/
def colAt (df : DataFrame) (j : ℕ) : List Cell :=
  df.rows.map (fun r => r.getD j .blank)

/-- Characters kept by the cleaning regex `[^\d.-]` in
`remove_non_numeric_characters`: digits, the period and the minus sign. -/
def isNumChar (c : Char) : Bool :=
  c.isDigit || c = '.' || c = '-'

/-- `Series.replace(r"[^\d.-]", "", regex=True)` on one string: drop every
character that is not a digit, period or minus sign. -/
def stripNonNumeric (s : String) : String :=
  String.mk (s.data.filter isNumChar)

/-- Value of a digit string read left to right. -/
def digitsVal (cs : List Char) : ℕ :=
  cs.foldl (fun a c => 10 * a + (c.toNat - 48)) 0

/-- Split a character list at the first period, if any. -/
def splitDot : List Char → List Char × Option (List Char)
  | [] => ([], none)
  | c :: cs =>
    if c = '.' then ([], some cs)
    else
      let r := splitDot cs
      (c :: r.1, r.2)

/-- Unsigned part of `pd.to_numeric` string parsing: digits with at most
one period and at least one digit in total. -/
def parseUnsignedQ (cs : List Char) : Option ℚ :=
  match splitDot cs with
  | (ip, none) =>
    if ip.all Char.isDigit && !ip.isEmpty then some (digitsVal ip) else none
  | (ip, some fp) =>
    if ip.all Char.isDigit && fp.all Char.isDigit && !(ip.isEmpty && fp.isEmpty)
    then some ((digitsVal ip : ℚ) + (digitsVal fp : ℚ) / (10 : ℚ) ^ fp.length)
    else none

/-- `pd.to_numeric` on one string over the post-strip alphabet
(digits, period, minus): an optional leading minus sign followed by an
unsigned decimal number; anything else fails. -/
def parseNumQ (s : String) : Option ℚ :=
  match s.data with
  | '-' :: rest => (parseUnsignedQ rest).map Neg.neg
  | cs => parseUnsignedQ cs

/-- Effect of `remove_non_numeric_characters` on one cell: the regex
replace applies only to strings, and `pd.to_numeric(errors="coerce")`
keeps numbers, keeps NaN, and turns an unparseable string into NaN. -/
def normCell : Cell → Cell
  | .str s =>
    match parseNumQ (stripNonNumeric s) with
    | some q => .num q
    | none => .blank
  | .num q => .num q
  | .blank => .blank

/-- `remove_non_numeric_characters(df, columns)`: restrict to the listed
columns that are present (`present_columns` is the filter in the guard);
if none is present, return the frame untouched; otherwise normalise every
cell of every listed column. -/
def removeNonNumericCharacters (df : DataFrame) (cols : List String) : DataFrame :=
  if (cols.filter (fun c => c ∈ df.columns)).isEmpty then df
  else
    { columns := df.columns
      rows := df.rows.map (fun r =>
        (r.enum).map (fun p =>
          if df.columns.getD p.1 "" ∈ cols then normCell p.2 else p.2)) }

/-! Model of `clean_dataframe` (combine_spreadsheets.py, lines 311-333). -/

/-- Python `str.startswith`: `strBegins p s` holds when `s` begins with
`p`, character by character. -/
def strBegins : List Char → List Char → Bool
  | [], _ => true
  | _ :: _, [] => false
  | p :: ps, c :: cs => p = c && strBegins ps cs

/-- Element-wise result of `Series.str.startswith(pattern, na=False)`
once the `.str` accessor's dtype validation has passed (the validation
itself — it raises AttributeError on a column with no string values —
is modelled in `cleanDataframeChecked`): a string cell matches iff it
starts with the pattern; for NaN, and for a non-string value of a mixed
column, the accessor yields NaN, which `na=False` maps to False. -/
def cellBegins (p : String) : Cell → Bool
  | .str s => strBegins p.data s.data
  | _ => false

/-- Whitespace trimming on a character list (`str.strip()`). -/
def trimChars (cs : List Char) : List Char :=
  ((cs.dropWhile Char.isWhitespace).reverse.dropWhile Char.isWhitespace).reverse

/-- `str.strip()` on a Python string. -/
def trimStr (s : String) : String :=
  String.mk (trimChars s.data)

/-- `.str.strip()` on one cell of an object-typed column: a string is
trimmed, NaN stays NaN, and a non-string value (possible in a mixed
column read from a spreadsheet) is mapped to NaN by the `.str`
accessor. -/
def stripCell : Cell → Cell
  | .str s => .str (trimStr s)
  | .num _ => .blank
  | .blank => .blank

/-- Column `j` has pandas dtype `object` iff it holds at least one string
value (pandas parsers give a fully numeric or empty column a numeric
dtype).  The dtype is determined by the frame as loaded and survives the
boolean row filtering, so it is computed on the original rows. -/
def isObjCol (df : DataFrame) (j : ℕ) : Bool :=
  df.rows.any (fun r =>
    match r.getD j .blank with
    | .str _ => true
    | _ => false)

/-- The whitespace-stripping pass of `clean_dataframe`: every column of
dtype `object` goes through `.str.strip()`. -/
def stripRow (df : DataFrame) (r : List Cell) : List Cell :=
  (r.enum).map (fun p => if isObjCol df p.1 then stripCell p.2 else p.2)

/-- Index of the "Account Number" column, if present. -/
def accIdx (df : DataFrame) : Option ℕ :=
  df.columns.findIdx? (fun c => c = "Account Number")

/-- The sequential per-pattern row filters of `clean_dataframe`:
`for prefix in startsWithColumns: df = df[~df["Account Number"].str.startswith(prefix, na=False)]`. -/
def dropMatchingRows (i : ℕ) (pats : List String) (rows : List (List Cell)) :
    List (List Cell) :=
  pats.foldl (fun rs p => rs.filter (fun r => !(cellBegins p (r.getD i .blank)))) rows

/-- The checks-passed core of `clean_dataframe(df, startsWithColumns)`:
if an "Account Number" column is present, drop every row whose value
there starts with one of the patterns; then strip every object-typed
column.  `cleanDataframeChecked` adds the `.str` accessor dtype
validation under which the source raises instead. -/
def cleanDataframe (df : DataFrame) (pats : List String) : DataFrame :=
  { columns := df.columns
    rows :=
      (match accIdx df with
        | some i => dropMatchingRows i pats df.rows
        | none => df.rows).map (stripRow df) }

/-- One step of the `pd.concat` column-union: append the columns of the
next frame that are not already present, keeping first-appearance
order. -/
def insertAbsent (acc cs : List String) : List String :=
  acc ++ cs.filter (fun c => c ∉ acc)

/-- Column union across frames in first-appearance order
(`pd.concat(..., join="outer", sort=False)`). -/
def unionColumns (css : List (List String)) : List String :=
  css.foldl insertAbsent []

/-- Reindex one source row into the union columns: a column the source
frame lacks gets a blank (NaN) value. -/
def alignRow (cols dfcols : List String) (r : List Cell) : List Cell :=
  cols.map (fun c =>
    match dfcols.findIdx? (fun c2 => c2 = c) with
    | some j => r.getD j .blank
    | none => .blank)

/-- `pd.concat(all_data, ignore_index=True)`. -/
def concatFrames (dfs : List DataFrame) : DataFrame :=
  { columns := unionColumns (dfs.map (fun df => df.columns))
    rows := (dfs.map (fun df =>
      df.rows.map (alignRow (unionColumns (dfs.map (fun df2 => df2.columns)))
        df.columns))).flatten }

/-- Apostrophe character, by code point (appears inside two configured
column names). -/
def aposC : Char := Char.ofNat 39

/-- config.py `numeric_columns`. -/
def numericColumnsCfg : List String :=
  ["Last Price", "Last Price Change", "Current Value",
   "Today" ++ String.singleton aposC ++ "s Gain/Loss Dollar",
   "Total Gain/Loss Dollar", "Cost Basis Total", "Average Cost Basis"]

/-- config.py `percentage_columns`. -/
def percentageColumnsCfg : List String :=
  ["Today" ++ String.singleton aposC ++ "s Gain/Loss Percent",
   "Total Gain/Loss Percent", "Percent Of Account"]

/-- config.py `startsWithColumns`: the excluded boilerplate patterns. -/
def startsWithColumnsCfg : List String :=
  ["The data and information", "Brokerage services are", "Date downloaded"]

instance exceptDecEq {e a : Type} [DecidableEq e] [DecidableEq a] :
    DecidableEq (Except e a) := fun x y =>
  match x, y with
  | .error u, .error v =>
    if h : u = v then isTrue (by rw [h])
    else isFalse (by intro hc; cases hc; exact h rfl)
  | .ok u, .ok v =>
    if h : u = v then isTrue (by rw [h])
    else isFalse (by intro hc; cases hc; exact h rfl)
  | .error _, .ok _ => isFalse (by intro hc; cases hc)
  | .ok _, .error _ => isFalse (by intro hc; cases hc)

/-- One input file: its name, its extension (final suffix with the dot)
and the outcome of attempting to parse it; the parse outcome stands for
what `pd.read_excel` / `pd.read_csv` would do. -/
structure FileEntry where
  name : String
  ext : String
  parsed : Except String DataFrame
  deriving DecidableEq, Repr

/-- `f.suffix.lower() in {".xlsx", ".csv"}`. -/
def extValid (e : String) : Bool :=
  let l := String.mk (e.data.map Char.toLower)
  l = ".xlsx" || l = ".csv"

/-- Whether the file's parse attempt raised. -/
def parseFailed (f : FileEntry) : Bool :=
  match f.parsed with
  | .error _ => true
  | .ok _ => false

/-- The per-file try/except body of `process_files`: a parsed frame is
cleaned and appended; a failure logs the file and continues.  The
`parsed` outcome stands for the whole try-body up to the cleaning
checks — a read error, and equally the AttributeError that
`clean_dataframe` raises on an account column without string values,
are injected as `.error` entries, so the frames reaching `.ok` are the
ones whose cleaning core runs through. -/
def processStep (acc : List DataFrame × List String) (f : FileEntry) :
    List DataFrame × List String :=
  match f.parsed with
  | .ok df => (acc.1 ++ [cleanDataframe df startsWithColumnsCfg], acc.2)
  | .error _ => (acc.1, acc.2 ++ [f.name])

/-- `process_files(folder)`: keep files with a supported extension, raise
when there are none, otherwise run the per-file step over them, returning
the cleaned frames and the log of files that failed to parse. -/
def processFiles (files : List FileEntry) :
    Except String (List DataFrame × List String) :=
  if (files.filter (fun f => extValid f.ext)).isEmpty
  then .error "No valid files found"
  else .ok ((files.filter (fun f => extValid f.ext)).foldl processStep ([], []))

/-- The guard in `combine_and_clean_sheets`: raise when `process_files`
returned no frames at all. -/
def combineLoad (files : List FileEntry) :
    Except String (List DataFrame × List String) :=
  match processFiles files with
  | .error e => .error e
  | .ok r =>
    if r.1.isEmpty then .error "No valid files were found to process" else .ok r

/-- Result of one successful file: its cleaned frame. -/
def okFrame (f : FileEntry) : Option DataFrame :=
  match f.parsed with
  | .ok df => some (cleanDataframe df startsWithColumnsCfg)
  | .error _ => none

/-- The pure data part of `process_data`: concatenate, then normalise
the numeric and the percentage column groups. -/
def combinedTable (dfs : List DataFrame) : DataFrame :=
  removeNonNumericCharacters
    (removeNonNumericCharacters (concatFrames dfs) numericColumnsCfg)
    percentageColumnsCfg

/-- The combined table the pipeline writes, if it gets that far: `none`
when loading aborted, so no output file is produced. -/
def pipelineOutput (files : List FileEntry) : Option DataFrame :=
  match combineLoad files with
  | .error _ => none
  | .ok r => some (combinedTable r.1)

/-! Model of the Excel automation part of `process_data`
(combine_spreadsheets.py, lines 218-284) and of the
`run_macro_on_workbook` boundary (run_macros.py). -/

/-- Lifecycle state of one COM workbook handle. -/
inductive WbState where
  | notOpened
  | opened
  | closedDiscarded
  deriving DecidableEq, Repr

/-- Observable outcome of one `process_data` run: the final state of the
two workbook handles, completed `Save()` calls on the target, and how
many times the macro-runner call was attempted. -/
structure PDTrace where
  mcrWb : WbState
  tgtWb : WbState
  tgtSaves : ℕ
  runAttempts : ℕ
  deriving DecidableEq, Repr

/-- Failure injection for the external calls made inside the try-block
of `process_data`, in program order. -/
structure PDEnv where
  writeFails : Bool
  openMcrFails : Bool
  openTgtFails : Bool
  runFails : Bool
  fmtFails : Bool
  saveFails : Bool
  deriving DecidableEq, Repr

/-- The except-handler of `process_data` composed with its
finally-block: close the macro workbook with `SaveChanges=False`, close
the target workbook with `SaveChanges=False` (each inside try/except
pass), re-raise as `ValueError`; the finally-block's second close of the
macro workbook is a no-op on an already-closed handle. -/
def pdHandler (t : PDTrace) : Except String Unit × PDTrace :=
  (.error "Failed to process data",
   { t with
      mcrWb := if t.mcrWb = .opened then .closedDiscarded else t.mcrWb
      tgtWb := if t.tgtWb = .opened then .closedDiscarded else t.tgtWb })

/-- The try-block of `process_data` after the pure data work, each
external call's outcome supplied by the environment; the first raise
transfers control to the handler.  The macro-runner call (line 241) is
attempted exactly once, with no retry anywhere. -/
def processDataSteps (env : PDEnv) : Except String Unit × PDTrace :=
  if env.writeFails then pdHandler ⟨.notOpened, .notOpened, 0, 0⟩
  else if env.openMcrFails then pdHandler ⟨.notOpened, .notOpened, 0, 0⟩
  else if env.openTgtFails then pdHandler ⟨.opened, .notOpened, 0, 0⟩
  else if env.runFails then pdHandler ⟨.opened, .opened, 0, 1⟩
  else if env.fmtFails then pdHandler ⟨.opened, .opened, 0, 1⟩
  else if env.saveFails then pdHandler ⟨.opened, .opened, 0, 1⟩
  else (.ok (), ⟨.closedDiscarded, .opened, 1, 1⟩)

/-- Parameter list of `def run_macro_on_workbook(...)` (run_macros.py,
line 5): four positional parameters. -/
def runMacroOnWorkbookParams : List String :=
  ["macro_workbook_path", "target_workbook_path", "macro_name",
   "exclusion_file_path"]

/-- Positional arguments at the call site in `process_data`
(combine_spreadsheets.py, line 241). -/
def processDataCallArgs : List String :=
  ["excel", "macro_workbook", "target_workbook", "macro_name",
   "exclusion_file"]

/-- A Python call onto plain positional parameters (no defaults, no
star-args) binds iff the argument count equals the parameter count;
otherwise the call raises TypeError before the body runs. -/
def pythonCallBinds (params args : ℕ) : Bool := params = args

/-- The fully-qualified macro reference built at run_macros.py line 19:
the macro workbook's name in single quotes, an exclamation mark, then
the macro name. -/
def fullMacroName (wbName mName : String) : String :=
  String.singleton aposC ++ wbName ++ String.singleton aposC ++ "!" ++ mName

/-- The argument list passed to `excel.Application.Run` after the macro
reference (run_macros.py, line 20). -/
def runCallArgs (exclusionPath : String) : List String := [exclusionPath]

/-! Model of the worksheet seen by `ExcelFormatter` and
`get_column_index_by_heading` (utils.py). -/

/-- One worksheet column: its row-1 header cell, its data-row values
(rows 2..UsedRange.Rows.Count; `none` is an empty cell), its number
format and whether AutoFit was applied. -/
structure SCol where
  header : Option String
  cells : List (Option ℚ)
  fmt : Option String
  autofitted : Bool
  deriving DecidableEq, Repr

/-- A worksheet: its columns, left to right. -/
structure Sheet where
  cols : List SCol
  deriving DecidableEq, Repr

/-- First column whose row-1 value equals the heading exactly
(`get_column_index_by_heading`; indices are 0-based here where the
source is 1-based). -/
def findHeaderIdx (h : String) : List SCol → Option ℕ
  | [] => none
  | c :: cs =>
    if c.header = some h then some 0
    else (findHeaderIdx h cs).map (fun i => i + 1)

/-- `get_column_index_by_heading(ws, heading)`. -/
def getColumnIndexByHeading (s : Sheet) (heading : String) : Option ℕ :=
  findHeaderIdx heading s.cols

/-- The currency format applied by `format_numeric_columns`. -/
def currencyFmt : String := "$#,##0.00;[Red]($#,##0.00)"

/-- Replace the `j`-th column by `f` of it. -/
def modifyCol : List SCol → ℕ → (SCol → SCol) → List SCol
  | [], _, _ => []
  | c :: cs, 0, f => f c :: cs
  | c :: cs, j + 1, f => c :: modifyCol cs j f

/-- Shared shape of the two formatting loops: look the heading up; when
found, update that column; a missing heading is skipped.  The second
component carries the `logging.error` lines the pass writes: the source
logs only inside its except-branch, which the total model never
enters. -/
def hdStep (upd : SCol → SCol) (acc : Sheet × List String) (n : String) :
    Sheet × List String :=
  match getColumnIndexByHeading acc.1 n with
  | some j => (⟨modifyCol acc.1.cols j upd⟩, acc.2)
  | none => acc

/-- Column update of `format_numeric_columns`: set the currency number
format. -/
def numUpd (col : SCol) : SCol := { col with fmt := some currencyFmt }

/-- The `cell.Value = cell.Value / 100` loop over the data rows of one
column: every non-empty cell is divided by 100, empty cells skipped. -/
def divCells (col : SCol) : SCol :=
  { col with cells := col.cells.map (Option.map (fun v => v / 100)) }

/-- Column update of `format_percentage_columns`: divide the data rows
by 100, then set the percentage number format. -/
def pctUpd (col : SCol) : SCol := { divCells col with fmt := some "0.00%" }

/-- `ExcelFormatter.format_numeric_columns(ws, columns)`. -/
def formatNumericColumns (s : Sheet) (names : List String) :
    Sheet × List String :=
  names.foldl (hdStep numUpd) (s, [])

/-- `ExcelFormatter.format_percentage_columns(ws, columns)`. -/
def formatPercentageColumns (s : Sheet) (names : List String) :
    Sheet × List String :=
  names.foldl (hdStep pctUpd) (s, [])

/-- The header test of `autofit_columns_by_heading`: the row-1 value
must be truthy (non-empty) and equal the heading after `strip()`. -/
def autofitMatch (h : String) (c : SCol) : Bool :=
  match c.header with
  | some v => !(v = "") && (trimStr v = h)
  | none => false

/-- The inner scan of `autofit_columns_by_heading`: first column whose
header matches after stripping. -/
def autofitFindIdx (h : String) : List SCol → Option ℕ
  | [] => none
  | c :: cs =>
    if autofitMatch h c then some 0
    else (autofitFindIdx h cs).map (fun i => i + 1)

/-- One heading of `autofit_columns_by_heading`. -/
def autofitStep (s : Sheet) (h : String) : Sheet :=
  match autofitFindIdx h s.cols with
  | some j => ⟨modifyCol s.cols j (fun col => { col with autofitted := true })⟩
  | none => s

/-- `ExcelFormatter.autofit_columns_by_heading(ws, headings)`. -/
def autofitColumnsByHeading (s : Sheet) (hs : List String) : Sheet :=
  hs.foldl autofitStep s

/-! From here on: the verification theorems. -/

/-! Helper lemmas about the row transformation used by
`removeNonNumericCharacters`. -/

theorem getD_enum_map (r : List Cell) (f : ℕ × Cell → Cell) (j : ℕ) (d : Cell) :
    ((r.enum).map f).getD j d = (r[j]?.map (fun c => f (j, c))).getD d := by
  rw [List.getD_eq_getElem?_getD, List.getElem?_map, List.getElem?_enum]
  cases r[j]? <;> rfl

theorem colAt_removeNNC_mem (df : DataFrame) (cols : List String) (j : ℕ)
    (hj : j < df.columns.length) (hmem : df.columns.getD j "" ∈ cols) :
    colAt (removeNonNumericCharacters df cols) j = (colAt df j).map normCell := by
  have hc : df.columns.getD j "" ∈ df.columns := by
    rw [List.getD_eq_getElem?_getD, List.getElem?_eq_getElem hj]
    exact List.getElem_mem hj
  have hpres : (cols.filter (fun c => c ∈ df.columns)).isEmpty = false := by
    rw [Bool.eq_false_iff]
    intro h
    rw [List.isEmpty_iff, List.filter_eq_nil_iff] at h
    exact h _ hmem (by simpa using hc)
  have hrow : ∀ r : List Cell,
      (((r.enum).map (fun p =>
        if df.columns.getD p.1 "" ∈ cols then normCell p.2 else p.2)).getD j .blank)
      = normCell (r.getD j .blank) := by
    intro r
    have hmem2 : df.columns[j]?.getD "" ∈ cols := by
      rw [← List.getD_eq_getElem?_getD]; exact hmem
    rw [getD_enum_map]
    cases hr : r[j]? with
    | none =>
      have hget : r.getD j .blank = .blank := by
        rw [List.getD_eq_getElem?_getD, hr]; rfl
      simp [hr, hget, normCell]
    | some c =>
      have hget : r.getD j .blank = c := by
        rw [List.getD_eq_getElem?_getD, hr]; rfl
      simp [hr, hget, hmem2]
  simp only [removeNonNumericCharacters, hpres]
  simp only [Bool.false_eq_true, if_false, colAt, List.map_map]
  exact List.map_congr_left (fun r _ => hrow r)

theorem columns_removeNNC (df : DataFrame) (cols : List String) :
    (removeNonNumericCharacters df cols).columns = df.columns := by
  unfold removeNonNumericCharacters
  split <;> rfl

theorem colAt_removeNNC_not_mem (df : DataFrame) (cols : List String) (j : ℕ)
    (h : df.columns.getD j "" ∉ cols) :
    colAt (removeNonNumericCharacters df cols) j = colAt df j := by
  unfold removeNonNumericCharacters
  split
  · rfl
  · have hmem2 : df.columns[j]?.getD "" ∉ cols := by
      rw [← List.getD_eq_getElem?_getD]; exact h
    simp only [colAt, List.map_map]
    apply List.map_congr_left
    intro r _
    show ((r.enum).map _).getD j .blank = r.getD j .blank
    rw [getD_enum_map]
    cases hr : r[j]? with
    | none =>
      rw [List.getD_eq_getElem?_getD, hr]; rfl
    | some c =>
      have hget : r.getD j .blank = c := by
        rw [List.getD_eq_getElem?_getD, hr]; rfl
      simp [hget, hmem2, hr]

theorem removeNNC_absent (df : DataFrame) (cols : List String)
    (h : ∀ c ∈ cols, c ∉ df.columns) :
    removeNonNumericCharacters df cols = df := by
  unfold removeNonNumericCharacters
  have he : (cols.filter (fun c => c ∈ df.columns)).isEmpty = true := by
    rw [List.isEmpty_iff, List.filter_eq_nil_iff]
    intro a ha
    simpa using h a ha
  simp [he]

/-- C1: For every configured numeric or percentage column present in the
combined table, normalization strips every character that is not a digit,
period, or minus sign from each value and parses the result as a number;
a value that fails to parse (e.g. "N/A") becomes blank, not zero and not
an error, and "$1,234.56" yields the number 1234.56. -/
theorem C1_numeric_normalization :
    (∀ (df : DataFrame) (cols : List String) (j : ℕ),
        j < df.columns.length → df.columns.getD j "" ∈ cols →
        colAt (removeNonNumericCharacters df cols) j = (colAt df j).map normCell)
    ∧ (∀ s : String, (stripNonNumeric s).data = s.data.filter isNumChar)
    ∧ (∀ s : String, parseNumQ (stripNonNumeric s) = none → normCell (.str s) = .blank)
    ∧ normCell (.str "$1,234.56") = .num (1234.56 : ℚ)
    ∧ normCell (.str "N/A") = .blank
    ∧ Cell.blank ≠ Cell.num 0 := by
  refine ⟨fun df cols j hj hmem => colAt_removeNNC_mem df cols j hj hmem,
    fun s => rfl, fun s h => by simp [normCell, h], ?_, ?_, by simp⟩
  · simp [normCell, parseNumQ, stripNonNumeric, parseUnsignedQ, splitDot, digitsVal,
      isNumChar]
    norm_num
  · simp [normCell, parseNumQ, stripNonNumeric, parseUnsignedQ, splitDot, digitsVal,
      isNumChar]

/-- Witness for C1: the column-level statement evaluated on a concrete
one-column frame holding "$1,234.56" and "N/A". -/
theorem C1_numeric_normalization_witness :
    (0 < (DataFrame.mk ["Last Price"]
        [[.str "$1,234.56"], [.str "N/A"]]).columns.length)
    ∧ ((DataFrame.mk ["Last Price"]
        [[.str "$1,234.56"], [.str "N/A"]]).columns.getD 0 "" ∈ ["Last Price"])
    ∧ colAt (removeNonNumericCharacters
        (DataFrame.mk ["Last Price"] [[.str "$1,234.56"], [.str "N/A"]])
        ["Last Price"]) 0
      = (colAt (DataFrame.mk ["Last Price"] [[.str "$1,234.56"], [.str "N/A"]]) 0).map
          normCell :=
  ⟨by decide, by decide,
    C1_numeric_normalization.1
      (DataFrame.mk ["Last Price"] [[.str "$1,234.56"], [.str "N/A"]])
      ["Last Price"] 0 (by decide) (by decide)⟩

/-- C10: numeric normalization modifies only the listed columns that are
actually present in the frame; every other column is left unchanged, and
when none of the listed columns is present the frame is left entirely
unchanged. -/
theorem C10_normalization_frame_effect :
    (∀ (df : DataFrame) (cols : List String),
        (removeNonNumericCharacters df cols).columns = df.columns)
    ∧ (∀ (df : DataFrame) (cols : List String) (j : ℕ),
        df.columns.getD j "" ∉ cols →
        colAt (removeNonNumericCharacters df cols) j = colAt df j)
    ∧ (∀ (df : DataFrame) (cols : List String),
        (∀ c ∈ cols, c ∉ df.columns) → removeNonNumericCharacters df cols = df) :=
  ⟨columns_removeNNC, colAt_removeNNC_not_mem, removeNNC_absent⟩

/-- Witness for C10: a frame with columns A, B where only B is listed
keeps column A untouched, and a fully absent column list leaves the frame
literally unchanged. -/
theorem C10_normalization_frame_effect_witness :
    ((DataFrame.mk ["A", "B"] [[.str "x", .str "5"]]).columns.getD 0 "" ∉ ["B"])
    ∧ colAt (removeNonNumericCharacters
        (DataFrame.mk ["A", "B"] [[.str "x", .str "5"]]) ["B"]) 0
      = colAt (DataFrame.mk ["A", "B"] [[.str "x", .str "5"]]) 0
    ∧ removeNonNumericCharacters (DataFrame.mk ["A", "B"] [[.str "x", .str "5"]]) ["C"]
      = DataFrame.mk ["A", "B"] [[.str "x", .str "5"]] :=
  ⟨by decide,
    C10_normalization_frame_effect.2.1
      (DataFrame.mk ["A", "B"] [[.str "x", .str "5"]]) ["B"] 0 (by decide),
    C10_normalization_frame_effect.2.2
      (DataFrame.mk ["A", "B"] [[.str "x", .str "5"]]) ["C"] (by decide)⟩

/-! Lemmas about `cleanDataframe`. -/

theorem mem_foldl_insertAbsent (css : List (List String)) :
    ∀ (acc : List String) (c : String),
      c ∈ css.foldl insertAbsent acc ↔ c ∈ acc ∨ ∃ cs ∈ css, c ∈ cs := by
  induction css with
  | nil => simp
  | cons cs rest ih =>
    intro acc c
    show c ∈ rest.foldl insertAbsent (insertAbsent acc cs) ↔ _
    rw [ih]
    simp only [insertAbsent, List.mem_append, List.mem_filter, List.mem_cons]
    constructor
    · rintro (⟨h | ⟨h1, _⟩⟩ | ⟨ds, hds, hc⟩)
      · exact Or.inl h
      · exact Or.inr ⟨cs, Or.inl rfl, h1⟩
      · exact Or.inr ⟨ds, Or.inr hds, hc⟩
    · by_cases hacc : c ∈ acc
      · intro _; exact Or.inl (Or.inl hacc)
      · rintro (h | ⟨ds, hds | hds, hc⟩)
        · exact absurd h hacc
        · exact Or.inl (Or.inr ⟨hds ▸ hc, by simpa using hacc⟩)
        · exact Or.inr ⟨ds, hds, hc⟩

/-- C3: concatenation produces a table whose column set is the union of
the input column sets; each source row gets a blank value in every
column its source frame lacked; concatenating frames with columns
A,B and B,C yields columns A,B,C with the first frame's rows blank in C
and the second frame's rows blank in A. -/
theorem C3_concat_column_union :
    (∀ (dfs : List DataFrame) (c : String),
        c ∈ (concatFrames dfs).columns ↔ ∃ df ∈ dfs, c ∈ df.columns)
    ∧ (∀ (dfs : List DataFrame) (df : DataFrame) (r : List Cell),
        df ∈ dfs → r ∈ df.rows →
        alignRow (concatFrames dfs).columns df.columns r ∈ (concatFrames dfs).rows)
    ∧ (∀ (cols dfcols : List String) (r : List Cell) (k : ℕ),
        k < cols.length → cols.getD k "" ∉ dfcols →
        (alignRow cols dfcols r).getD k .blank = .blank)
    ∧ concatFrames
        [DataFrame.mk ["A", "B"] [[.str "a1", .str "b1"]],
         DataFrame.mk ["B", "C"] [[.str "b2", .str "c2"]]]
      = DataFrame.mk ["A", "B", "C"]
          [[.str "a1", .str "b1", .blank], [.blank, .str "b2", .str "c2"]] := by
  refine ⟨?_, ?_, ?_, by decide⟩
  · intro dfs c
    show c ∈ unionColumns (dfs.map (fun df => df.columns)) ↔ _
    rw [unionColumns, mem_foldl_insertAbsent]
    simp
  · intro dfs df r hdf hr
    show _ ∈ (dfs.map _).flatten
    rw [List.mem_flatten]
    refine ⟨df.rows.map (alignRow (unionColumns (dfs.map (fun df2 => df2.columns)))
      df.columns), List.mem_map_of_mem _ hdf, ?_⟩
    exact List.mem_map_of_mem _ hr
  · intro cols dfcols r k hk hout
    have hget : cols.getD k "" = cols[k] := by
      rw [List.getD_eq_getElem?_getD, List.getElem?_eq_getElem hk]; rfl
    unfold alignRow
    rw [List.getD_eq_getElem?_getD, List.getElem?_map, List.getElem?_eq_getElem hk]
    have hnone : dfcols.findIdx? (fun c2 => c2 = cols[k]) = none := by
      rw [List.findIdx?_eq_none_iff]
      intro x hx
      simp only [decide_eq_false_iff_not]
      intro hxe
      exact hout (by rw [hget, ← hxe]; exact hx)
    simp [hnone]

/-- Witness for C3: the row-membership statement evaluated on the
concrete two-frame example. -/
theorem C3_concat_column_union_witness :
    (DataFrame.mk ["A", "B"] [[Cell.str "a1", Cell.str "b1"]]
        ∈ [DataFrame.mk ["A", "B"] [[Cell.str "a1", Cell.str "b1"]],
           DataFrame.mk ["B", "C"] [[Cell.str "b2", Cell.str "c2"]]])
    ∧ ([Cell.str "a1", Cell.str "b1"]
        ∈ (DataFrame.mk ["A", "B"] [[Cell.str "a1", Cell.str "b1"]]).rows)
    ∧ alignRow
        (concatFrames
          [DataFrame.mk ["A", "B"] [[Cell.str "a1", Cell.str "b1"]],
           DataFrame.mk ["B", "C"] [[Cell.str "b2", Cell.str "c2"]]]).columns
        ["A", "B"] [Cell.str "a1", Cell.str "b1"]
      ∈ (concatFrames
          [DataFrame.mk ["A", "B"] [[Cell.str "a1", Cell.str "b1"]],
           DataFrame.mk ["B", "C"] [[Cell.str "b2", Cell.str "c2"]]]).rows :=
  ⟨by decide, by decide,
    C3_concat_column_union.2.1
      [DataFrame.mk ["A", "B"] [[Cell.str "a1", Cell.str "b1"]],
       DataFrame.mk ["B", "C"] [[Cell.str "b2", Cell.str "c2"]]]
      (DataFrame.mk ["A", "B"] [[Cell.str "a1", Cell.str "b1"]])
      [Cell.str "a1", Cell.str "b1"] (by decide) (by decide)⟩

theorem foldl_processStep (fs : List FileEntry) :
    ∀ acc : List DataFrame × List String,
      fs.foldl processStep acc
        = (acc.1 ++ fs.filterMap okFrame,
           acc.2 ++ (fs.filter parseFailed).map (fun f => f.name)) := by
  induction fs with
  | nil => simp
  | cons f rest ih =>
    intro acc
    show rest.foldl processStep (processStep acc f) = _
    rw [ih]
    cases hp : f.parsed <;>
      simp [processStep, okFrame, parseFailed, hp]

theorem okFrame_eq_none (f : FileEntry) : okFrame f = none ↔ parseFailed f = true := by
  cases hp : f.parsed <;> simp [okFrame, parseFailed, hp]

/-- C4: a parse failure of a single file is logged and skipped while the
batch continues; the loader fails with a terminal error if and only if
zero files were parseable; a folder containing only unsupported file
types aborts with the "no valid files" failure before any output is
produced. -/
theorem C4_loader_error_policy :
    (∀ files : List FileEntry,
        (files.filter (fun f => extValid f.ext)).isEmpty = false →
        processFiles files
          = .ok ((files.filter (fun f => extValid f.ext)).filterMap okFrame,
              ((files.filter (fun f => extValid f.ext)).filter parseFailed).map
                (fun f => f.name)))
    ∧ (∀ (files : List FileEntry) (f : FileEntry), f ∈ files →
        extValid f.ext = true → parseFailed f = true →
        ∃ dfs log, processFiles files = .ok (dfs, log) ∧ f.name ∈ log)
    ∧ (∀ files : List FileEntry,
        (∃ e, combineLoad files = .error e)
          ↔ ∀ f ∈ files, extValid f.ext = false ∨ parseFailed f = true)
    ∧ (∀ files : List FileEntry, (∀ f ∈ files, extValid f.ext = false) →
        combineLoad files = .error "No valid files found"
        ∧ pipelineOutput files = none) := by
  have hchar : ∀ files : List FileEntry,
      (files.filter (fun f => extValid f.ext)).isEmpty = false →
      processFiles files
        = .ok ((files.filter (fun f => extValid f.ext)).filterMap okFrame,
            ((files.filter (fun f => extValid f.ext)).filter parseFailed).map
              (fun f => f.name)) := by
    intro files h
    unfold processFiles
    rw [h]
    rw [foldl_processStep]
    simp
  refine ⟨hchar, ?_, ?_, ?_⟩
  · intro files f hf hv hp
    have hmem : f ∈ files.filter (fun f => extValid f.ext) :=
      List.mem_filter.mpr ⟨hf, hv⟩
    have hne : (files.filter (fun f => extValid f.ext)).isEmpty = false := by
      rw [Bool.eq_false_iff]
      intro hempty
      rw [List.isEmpty_iff] at hempty
      rw [hempty] at hmem
      exact absurd hmem (List.not_mem_nil f)
    refine ⟨_, _, hchar files hne, ?_⟩
    exact List.mem_map_of_mem _ (List.mem_filter.mpr ⟨hmem, hp⟩)
  · intro files
    cases hv : (files.filter (fun f => extValid f.ext)).isEmpty with
    | true =>
      have hall : ∀ f ∈ files, extValid f.ext = false := by
        rw [List.isEmpty_iff, List.filter_eq_nil_iff] at hv
        intro f hf
        simpa using hv f hf
      have : combineLoad files = .error "No valid files found" := by
        unfold combineLoad processFiles
        rw [hv]
        rfl
      simp only [this]
      constructor
      · intro _ f hf
        exact Or.inl (hall f hf)
      · intro _
        exact ⟨_, rfl⟩
    | false =>
      rw [combineLoad, hchar files hv]
      by_cases hemp :
          ((files.filter (fun f => extValid f.ext)).filterMap okFrame).isEmpty = true
      · simp only [hemp, if_true]
        rw [List.isEmpty_iff, List.filterMap_eq_nil_iff] at hemp
        constructor
        · intro _ f hf
          by_cases hvf : extValid f.ext = true
          · exact Or.inr ((okFrame_eq_none f).mp
              (hemp f (List.mem_filter.mpr ⟨hf, hvf⟩)))
          · exact Or.inl (Bool.eq_false_iff.mpr hvf)
        · intro _
          exact ⟨_, rfl⟩
      · rw [Bool.not_eq_true] at hemp
        simp only [hemp, Bool.false_eq_true, if_false]
        constructor
        · rintro ⟨e, he⟩
          cases he
        · intro hall
          exfalso
          have hnil : (files.filter (fun f => extValid f.ext)).filterMap okFrame
              = [] := by
            rw [List.filterMap_eq_nil_iff]
            intro f hf
            have hmf := List.mem_filter.mp hf
            rcases hall f hmf.1 with hca | hca
            · rw [hmf.2] at hca
              cases hca
            · exact (okFrame_eq_none f).mpr hca
          rw [hnil] at hemp
          cases hemp
  · intro files hall
    have hv : (files.filter (fun f => extValid f.ext)).isEmpty = true := by
      rw [List.isEmpty_iff, List.filter_eq_nil_iff]
      intro f hf
      simp [hall f hf]
    have hc : combineLoad files = .error "No valid files found" := by
      unfold combineLoad processFiles
      rw [hv]
      rfl
    exact ⟨hc, by rw [pipelineOutput, hc]⟩

/-- Witness for C4: one good CSV and one failing CSV; the batch succeeds
and the failing file is logged. -/
theorem C4_loader_error_policy_witness :
    (FileEntry.mk "bad.csv" ".csv" (.error "parse error")
        ∈ [FileEntry.mk "good.csv" ".csv" (.ok (DataFrame.mk ["A"] [[Cell.str "1"]])),
           FileEntry.mk "bad.csv" ".csv" (.error "parse error")])
    ∧ extValid ".csv" = true
    ∧ parseFailed (FileEntry.mk "bad.csv" ".csv" (.error "parse error")) = true
    ∧ (∃ dfs log,
        processFiles
          [FileEntry.mk "good.csv" ".csv" (.ok (DataFrame.mk ["A"] [[Cell.str "1"]])),
           FileEntry.mk "bad.csv" ".csv" (.error "parse error")] = .ok (dfs, log)
        ∧ "bad.csv" ∈ log) :=
  ⟨by decide, by decide, by decide,
    C4_loader_error_policy.2.1
      [FileEntry.mk "good.csv" ".csv" (.ok (DataFrame.mk ["A"] [[Cell.str "1"]])),
       FileEntry.mk "bad.csv" ".csv" (.error "parse error")]
      (FileEntry.mk "bad.csv" ".csv" (.error "parse error"))
      (by decide) (by decide) (by decide)⟩

/-- C5: when the macro invocation step fails, `process_data` propagates
the error to its caller without retrying (the macro call was attempted
exactly once), and before re-raising it closes the target workbook with
unsaved changes discarded (no Save completed); the macro workbook is
closed too. -/
theorem C5_macro_failure_cleanup :
    ∀ env : PDEnv, env.writeFails = false → env.openMcrFails = false →
      env.openTgtFails = false → env.runFails = true →
      processDataSteps env
        = (.error "Failed to process data",
           ⟨.closedDiscarded, .closedDiscarded, 0, 1⟩) := by
  intro env h1 h2 h3 h4
  simp [processDataSteps, h1, h2, h3, h4, pdHandler]

/-- Witness for C5: the run in which exactly the macro invocation
fails. -/
theorem C5_macro_failure_cleanup_witness :
    (PDEnv.mk false false false true false false).writeFails = false
    ∧ (PDEnv.mk false false false true false false).openMcrFails = false
    ∧ (PDEnv.mk false false false true false false).openTgtFails = false
    ∧ (PDEnv.mk false false false true false false).runFails = true
    ∧ processDataSteps (PDEnv.mk false false false true false false)
        = (.error "Failed to process data",
           ⟨.closedDiscarded, .closedDiscarded, 0, 1⟩) :=
  ⟨rfl, rfl, rfl, rfl,
    C5_macro_failure_cleanup (PDEnv.mk false false false true false false)
      rfl rfl rfl rfl⟩

/-- C7: the claim describes the intended invocation
`<macro-file-name>!<macro-name>` with the exclusion-file path as its one
argument (run_macros.py builds exactly that reference and passes exactly
that one argument, and no return value is consumed); but the call site
in `process_data` passes five positional arguments to the four-parameter
`run_macro_on_workbook`, so the call cannot bind and raises TypeError
before any macro runs — the code contradicts the documented boundary. -/
theorem C7_macro_call_arity :
    runMacroOnWorkbookParams.length = 4
    ∧ processDataCallArgs.length = 5
    ∧ pythonCallBinds runMacroOnWorkbookParams.length
        processDataCallArgs.length = false
    ∧ (runCallArgs "exclusions.xlsx").length = 1
    ∧ fullMacroName "Macros.xlsm" "ProcessExclusionsAndTotals"
      = String.singleton aposC ++ "Macros.xlsm" ++ String.singleton aposC
        ++ "!ProcessExclusionsAndTotals" :=
  ⟨rfl, rfl, by decide, rfl, by simp [fullMacroName, String.ext_iff]⟩

theorem findHeaderIdx_spec (h : String) :
    ∀ (cs : List SCol) (j : ℕ), findHeaderIdx h cs = some j →
      ∃ col, cs[j]? = some col ∧ col.header = some h := by
  intro cs
  induction cs with
  | nil => intro j hj; cases hj
  | cons c rest ih =>
    intro j hj
    by_cases hc : c.header = some h
    · simp only [findHeaderIdx, if_pos hc] at hj
      cases hj
      exact ⟨c, by simp, hc⟩
    · simp only [findHeaderIdx, if_neg hc, Option.map_eq_some'] at hj
      obtain ⟨j2, hj2, rfl⟩ := hj
      obtain ⟨col, hcol, hh⟩ := ih j2 hj2
      exact ⟨col, by simpa using hcol, hh⟩

theorem findHeaderIdx_none_iff (h : String) (cs : List SCol) :
    findHeaderIdx h cs = none ↔ ∀ col ∈ cs, col.header ≠ some h := by
  induction cs with
  | nil => simp [findHeaderIdx]
  | cons c rest ih =>
    by_cases hc : c.header = some h
    · simp [findHeaderIdx, hc]
    · simp [findHeaderIdx, hc, ih]

theorem findHeaderIdx_congr (h : String) :
    ∀ (cs1 cs2 : List SCol),
      cs1.map (fun c => c.header) = cs2.map (fun c => c.header) →
      findHeaderIdx h cs1 = findHeaderIdx h cs2 := by
  intro cs1
  induction cs1 with
  | nil =>
    intro cs2 hh
    cases cs2 with
    | nil => rfl
    | cons c cs => cases hh
  | cons c rest ih =>
    intro cs2 hh
    cases cs2 with
    | nil => cases hh
    | cons c2 rest2 =>
      simp only [List.map_cons, List.cons.injEq] at hh
      simp only [findHeaderIdx, hh.1]
      rw [ih rest2 hh.2]

theorem modifyCol_getElem? (f : SCol → SCol) :
    ∀ (cs : List SCol) (j i : ℕ),
      (modifyCol cs j f)[i]? = if i = j then (cs[j]?).map f else cs[i]? := by
  intro cs
  induction cs with
  | nil => intro j i; simp [modifyCol]
  | cons c rest ih =>
    intro j i
    cases j with
    | zero =>
      cases i with
      | zero => simp [modifyCol]
      | succ i2 => simp [modifyCol]
    | succ j2 =>
      cases i with
      | zero => simp [modifyCol]
      | succ i2 => simpa [modifyCol] using ih j2 i2

theorem modifyCol_headers (f : SCol → SCol) (hf : ∀ c, (f c).header = c.header) :
    ∀ (cs : List SCol) (j : ℕ),
      (modifyCol cs j f).map (fun c => c.header) = cs.map (fun c => c.header) := by
  intro cs
  induction cs with
  | nil => intro j; rfl
  | cons c rest ih =>
    intro j
    cases j with
    | zero => simp [modifyCol, hf]
    | succ j2 => simp [modifyCol, ih j2]

theorem hdStep_headers (upd : SCol → SCol) (hupd : ∀ c, (upd c).header = c.header)
    (acc : Sheet × List String) (n : String) :
    (hdStep upd acc n).1.cols.map (fun c => c.header)
      = acc.1.cols.map (fun c => c.header) := by
  unfold hdStep
  cases hl : getColumnIndexByHeading acc.1 n with
  | none => rfl
  | some j => exact modifyCol_headers upd hupd acc.1.cols j

theorem hdStep_snd (upd : SCol → SCol) (acc : Sheet × List String) (n : String) :
    (hdStep upd acc n).2 = acc.2 := by
  unfold hdStep
  cases getColumnIndexByHeading acc.1 n <;> rfl

theorem fold_hdStep_snd (upd : SCol → SCol) :
    ∀ (names : List String) (acc : Sheet × List String),
      (names.foldl (hdStep upd) acc).2 = acc.2 := by
  intro names
  induction names with
  | nil => intro acc; rfl
  | cons n rest ih =>
    intro acc
    show (rest.foldl (hdStep upd) (hdStep upd acc n)).2 = acc.2
    rw [ih, hdStep_snd]

theorem fold_hdStep_headers (upd : SCol → SCol)
    (hupd : ∀ c, (upd c).header = c.header) :
    ∀ (names : List String) (acc : Sheet × List String),
      (names.foldl (hdStep upd) acc).1.cols.map (fun c => c.header)
        = acc.1.cols.map (fun c => c.header) := by
  intro names
  induction names with
  | nil => intro acc; rfl
  | cons n rest ih =>
    intro acc
    show (rest.foldl (hdStep upd) (hdStep upd acc n)).1.cols.map _ = _
    rw [ih, hdStep_headers upd hupd]

theorem fold_hdStep_untouched (upd : SCol → SCol)
    (hupd : ∀ c, (upd c).header = c.header) :
    ∀ (names : List String) (acc : Sheet × List String) (j : ℕ),
      (∀ n ∈ names, (acc.1.cols.map (fun c => c.header))[j]? ≠ some (some n)) →
      (names.foldl (hdStep upd) acc).1.cols[j]? = acc.1.cols[j]? := by
  intro names
  induction names with
  | nil => intro acc j _; rfl
  | cons n rest ih =>
    intro acc j hna
    show (rest.foldl (hdStep upd) (hdStep upd acc n)).1.cols[j]? = _
    have hstep : (hdStep upd acc n).1.cols[j]? = acc.1.cols[j]? := by
      unfold hdStep
      cases hl : getColumnIndexByHeading acc.1 n with
      | none => rfl
      | some k =>
        have hk : k ≠ j := by
          intro hkj
          obtain ⟨col, hcol, hh⟩ := findHeaderIdx_spec n acc.1.cols k hl
          apply hna n (List.mem_cons_self n rest)
          rw [List.getElem?_map, ← hkj, hcol]
          simp [hh]
        show (modifyCol acc.1.cols k upd)[j]? = _
        rw [modifyCol_getElem?]
        exact if_neg (fun hjk => hk hjk.symm)
    rw [ih (hdStep upd acc n) j ?_, hstep]
    intro m hm
    rw [hdStep_headers upd hupd]
    exact hna m (List.mem_cons_of_mem n hm)

theorem fold_hdStep_touched (upd : SCol → SCol)
    (hupd : ∀ c, (upd c).header = c.header) :
    ∀ (names : List String) (acc : Sheet × List String) (n : String) (j : ℕ),
      names.Nodup → n ∈ names → getColumnIndexByHeading acc.1 n = some j →
      (names.foldl (hdStep upd) acc).1.cols[j]? = (acc.1.cols[j]?).map upd := by
  intro names
  induction names with
  | nil => intro acc n j _ hn; cases hn
  | cons m rest ih =>
    intro acc n j hnd hn hl
    obtain ⟨col, hcol, hh⟩ := findHeaderIdx_spec n acc.1.cols j hl
    rcases List.mem_cons.mp hn with hnm | hnr
    · subst hnm
      show (rest.foldl (hdStep upd) (hdStep upd acc n)).1.cols[j]? = _
      have hstep : (hdStep upd acc n).1.cols[j]? = (acc.1.cols[j]?).map upd := by
        unfold hdStep
        rw [hl]
        show (modifyCol acc.1.cols j upd)[j]? = _
        rw [modifyCol_getElem?]
        exact if_pos rfl
      rw [fold_hdStep_untouched upd hupd rest (hdStep upd acc n) j ?_, hstep]
      intro p hp
      rw [hdStep_headers upd hupd, List.getElem?_map, hcol]
      simp only [Option.map_some', ne_eq, Option.some.injEq]
      rw [hh]
      intro hpe
      injection hpe with h2
      exact (List.nodup_cons.mp hnd).1 (by rw [h2]; exact hp)
    · have hnm : n ≠ m :=
        fun he => (List.nodup_cons.mp hnd).1 (he ▸ hnr)
      show (rest.foldl (hdStep upd) (hdStep upd acc m)).1.cols[j]? = _
      have hstep : (hdStep upd acc m).1.cols[j]? = acc.1.cols[j]? := by
        unfold hdStep
        cases hlm : getColumnIndexByHeading acc.1 m with
        | none => rfl
        | some k =>
          have hk : k ≠ j := by
            intro hkj
            obtain ⟨col2, hcol2, hh2⟩ := findHeaderIdx_spec m acc.1.cols k hlm
            rw [hkj, hcol] at hcol2
            injection hcol2 with hce
            rw [hce] at hh
            rw [hh] at hh2
            injection hh2 with hsame
            exact hnm hsame
          show (modifyCol acc.1.cols k upd)[j]? = _
          rw [modifyCol_getElem?]
          exact if_neg (fun hjk => hk hjk.symm)
      have hl2 : getColumnIndexByHeading (hdStep upd acc m).1 n = some j := by
        unfold getColumnIndexByHeading
        rw [findHeaderIdx_congr n (hdStep upd acc m).1.cols acc.1.cols
          (hdStep_headers upd hupd acc m)]
        exact hl
      rw [ih (hdStep upd acc m) n j (List.nodup_cons.mp hnd).2 hnr hl2, hstep]

theorem fold_hdStep_erase (upd : SCol → SCol)
    (hupd : ∀ c, (upd c).header = c.header) :
    ∀ (names : List String) (acc : Sheet × List String) (n : String),
      getColumnIndexByHeading acc.1 n = none →
      names.foldl (hdStep upd) acc = (names.erase n).foldl (hdStep upd) acc := by
  intro names
  induction names with
  | nil => intro acc n _; rfl
  | cons m rest ih =>
    intro acc n hnone
    rw [List.erase_cons]
    by_cases hmn : m = n
    · rw [if_pos (by rw [hmn]; exact beq_self_eq_true n)]
      show rest.foldl (hdStep upd) (hdStep upd acc m) = _
      have hid : hdStep upd acc m = acc := by
        unfold hdStep
        rw [hmn, hnone]
      rw [hid]
    · rw [if_neg (by simpa using hmn)]
      show rest.foldl (hdStep upd) (hdStep upd acc m)
        = (rest.erase n).foldl (hdStep upd) (hdStep upd acc m)
      apply ih
      unfold getColumnIndexByHeading
      rw [findHeaderIdx_congr n (hdStep upd acc m).1.cols acc.1.cols
        (hdStep_headers upd hupd acc m)]
      exact hnone

theorem autofitMatch_iff (h : String) (col : SCol) :
    autofitMatch h col = true
      ↔ ∃ v, col.header = some v ∧ v ≠ "" ∧ trimStr v = h := by
  cases hc : col.header with
  | none => simp [autofitMatch, hc]
  | some v => simp [autofitMatch, hc]

theorem autofitFindIdx_spec (h : String) :
    ∀ (cs : List SCol) (j : ℕ), autofitFindIdx h cs = some j →
      ∃ col, cs[j]? = some col ∧ autofitMatch h col = true := by
  intro cs
  induction cs with
  | nil => intro j hj; cases hj
  | cons c rest ih =>
    intro j hj
    by_cases hc : autofitMatch h c = true
    · simp only [autofitFindIdx, if_pos hc] at hj
      cases hj
      exact ⟨c, by simp, hc⟩
    · simp only [autofitFindIdx, if_neg hc, Option.map_eq_some'] at hj
      obtain ⟨j2, hj2, rfl⟩ := hj
      obtain ⟨col, hcol, hm⟩ := ih j2 hj2
      exact ⟨col, by simpa using hcol, hm⟩

/-- C6 (amended): for every percentage-list column located in the sheet,
the formatter divides each non-blank data-row value by 100 exactly once
(12.5 becomes 0.125) and then applies the percentage display format;
the operation is not idempotent: a second run divides every value by 100
again (0.125 becomes 0.00125), so the formatter must run at most once
per output file. -/
theorem C6_percentage_conversion :
    (∀ (s : Sheet) (names : List String) (n : String) (j : ℕ),
        names.Nodup → n ∈ names → getColumnIndexByHeading s n = some j →
        (formatPercentageColumns s names).1.cols[j]? = (s.cols[j]?).map pctUpd)
    ∧ (∀ col : SCol,
        (pctUpd col).cells = col.cells.map (Option.map (fun v => v / 100))
        ∧ (pctUpd col).fmt = some "0.00%"
        ∧ (pctUpd col).header = col.header)
    ∧ (formatPercentageColumns
        (Sheet.mk [SCol.mk (some "P") [some (12.5 : ℚ), none] none false])
        ["P"]).1
      = Sheet.mk [SCol.mk (some "P") [some (0.125 : ℚ), none] (some "0.00%") false]
    ∧ (formatPercentageColumns
        (formatPercentageColumns
          (Sheet.mk [SCol.mk (some "P") [some (12.5 : ℚ), none] none false])
          ["P"]).1
        ["P"]).1
      = Sheet.mk [SCol.mk (some "P") [some (0.00125 : ℚ), none] (some "0.00%") false]
    ∧ (0.00125 : ℚ) ≠ (0.125 : ℚ) := by
  refine ⟨fun s names n j hnd hn hl =>
      fold_hdStep_touched pctUpd (fun c => rfl) names (s, []) n j hnd hn hl,
    fun col => ⟨rfl, rfl, rfl⟩, ?_, ?_, by norm_num⟩
  · simp [formatPercentageColumns, hdStep, getColumnIndexByHeading, findHeaderIdx,
      modifyCol, pctUpd, divCells]
    norm_num
  · simp [formatPercentageColumns, hdStep, getColumnIndexByHeading, findHeaderIdx,
      modifyCol, pctUpd, divCells]
    norm_num

/-- Counterexample for C6 as stated: the claim says a second run of the
formatter halves every value again; on a sheet whose percentage column
held 12.5, the first run leaves 0.125, and the second run leaves
0.00125 — the code divides by 100 again, it does not halve (which would
give 0.0625). -/
theorem C6_percentage_conversion_counterexample :
    (formatPercentageColumns
        (formatPercentageColumns
          (Sheet.mk [SCol.mk (some "P") [some (12.5 : ℚ)] none false]) ["P"]).1
        ["P"]).1
      = Sheet.mk [SCol.mk (some "P") [some (0.00125 : ℚ)] (some "0.00%") false]
    ∧ (0.00125 : ℚ) ≠ (0.125 : ℚ) / 2 := by
  constructor
  · simp [formatPercentageColumns, hdStep, getColumnIndexByHeading, findHeaderIdx,
      modifyCol, pctUpd, divCells]
    norm_num
  · norm_num

/-- Witness for C6: the per-column statement evaluated on a concrete
one-column sheet holding 12.5 and an empty cell. -/
theorem C6_percentage_conversion_witness :
    (["P"] : List String).Nodup
    ∧ ("P" ∈ (["P"] : List String))
    ∧ getColumnIndexByHeading
        (Sheet.mk [SCol.mk (some "P") [some (12.5 : ℚ), none] none false]) "P"
      = some 0
    ∧ (formatPercentageColumns
        (Sheet.mk [SCol.mk (some "P") [some (12.5 : ℚ), none] none false])
        ["P"]).1.cols[0]?
      = ((Sheet.mk [SCol.mk (some "P") [some (12.5 : ℚ), none] none false]).cols[0]?).map
          pctUpd :=
  ⟨by decide, by decide, by simp [getColumnIndexByHeading, findHeaderIdx],
    C6_percentage_conversion.1
      (Sheet.mk [SCol.mk (some "P") [some (12.5 : ℚ), none] none false])
      ["P"] "P" 0 (by decide) (by decide)
      (by simp [getColumnIndexByHeading, findHeaderIdx])⟩

/-- C8 (amended): for the configured numeric and percentage lists the
formatter locates a column by exact header-text match in row one; when no
header matches, that column is skipped silently with no log entry and
the formatting pass never aborts (the remaining columns are still
processed); the account-list autofit likewise never aborts but matches a
header only after stripping its surrounding whitespace. -/
theorem C8_missing_header_skipped :
    (∀ (s : Sheet) (n : String) (j : ℕ),
        getColumnIndexByHeading s n = some j →
        ∃ col, s.cols[j]? = some col ∧ col.header = some n)
    ∧ (∀ (s : Sheet) (n : String),
        getColumnIndexByHeading s n = none ↔ ∀ col ∈ s.cols, col.header ≠ some n)
    ∧ (∀ (s : Sheet) (names : List String) (n : String),
        getColumnIndexByHeading s n = none →
        formatNumericColumns s names = formatNumericColumns s (names.erase n))
    ∧ (∀ (s : Sheet) (names : List String),
        (formatNumericColumns s names).2 = [])
    ∧ (∀ (s : Sheet) (h : String) (j : ℕ),
        autofitFindIdx h s.cols = some j →
        ∃ col v, s.cols[j]? = some col ∧ col.header = some v ∧ v ≠ ""
          ∧ trimStr v = h) := by
  refine ⟨fun s n j hl => findHeaderIdx_spec n s.cols j hl,
    fun s n => findHeaderIdx_none_iff n s.cols,
    fun s names n hl => fold_hdStep_erase numUpd (fun c => rfl) names (s, []) n hl,
    fun s names => fold_hdStep_snd numUpd names (s, []),
    fun s h j hl => ?_⟩
  obtain ⟨col, hcol, hm⟩ := autofitFindIdx_spec h s.cols j hl
  obtain ⟨v, hv, hne, ht⟩ := (autofitMatch_iff h col).mp hm
  exact ⟨col, v, hcol, hv, hne, ht⟩

/-- Counterexample for C8 as stated: formatting the numeric list
["Missing"] on a sheet whose only header is "A" leaves the sheet
unchanged and emits no log entry at all, where the claim says a missing
header is skipped with a log entry; and the account-list autofit scan
accepts the padded header " Symbol " for the heading "Symbol", so its
match is not exact header text. -/
theorem C8_missing_header_skipped_counterexample :
    formatNumericColumns (Sheet.mk [SCol.mk (some "A") [] none false]) ["Missing"]
      = (Sheet.mk [SCol.mk (some "A") [] none false], [])
    ∧ autofitFindIdx "Symbol" [SCol.mk (some " Symbol ") [] none false] = some 0 :=
  ⟨by decide, by decide⟩

/-- Witness for C8: skipping the missing heading equals dropping it from
the list, evaluated on a concrete sheet. -/
theorem C8_missing_header_skipped_witness :
    getColumnIndexByHeading (Sheet.mk [SCol.mk (some "A") [] none false]) "Missing"
      = none
    ∧ formatNumericColumns (Sheet.mk [SCol.mk (some "A") [] none false])
        ["Missing", "A"]
      = formatNumericColumns (Sheet.mk [SCol.mk (some "A") [] none false])
        ((["Missing", "A"] : List String).erase "Missing") :=
  ⟨by decide,
    C8_missing_header_skipped.2.2.1 (Sheet.mk [SCol.mk (some "A") [] none false])
      ["Missing", "A"] "Missing" (by decide)⟩

end StockSheets
